import Mathlib

/-!
Shallow embedding of `src/tourist_website.py` (a Streamlit app that loads a
CSV of tourist destinations, normalizes its columns, and renders a filtered
map/card view).  The embedding covers the two components the specification
describes: the dataset loader/normalizer `load_data` (lines 85-168) and the
filter-and-render logic of `main` (lines 171-269).

Modelling conventions:
- a pandas cell is `Cell`: `na` models NaN/missing, `str` a string value,
  `num` a float64 value (`PyFloat`: a finite value idealized as an exact
  rational, or an IEEE infinity; float NaN is identified with the missing
  cell, matching how `pd.notnull`/`dropna` treat it);
- a DataFrame is `DF`: a header list plus rows of cells, with row cells
  matched to headers positionally; `getCell` models `row['col']` (first
  matching column, `na` when the column is absent);
- the raw CSV (after text decoding) is `RawGrid`: a header row plus rows of
  string fields; `readCsv` models `pd.read_csv`'s NA-marking of fields that
  match the default `na_values` list (in particular, blank fields become NaN)
  and pads short rows with NaN;
- Streamlit calls are modelled by the data handed to them (`RenderOut`);
- `pd.to_numeric(errors='coerce')` is modelled by `toNumericCell`, with a
  decimal/exponent parser `parseNumeric` standing in for float coercion.
-/

namespace TouristWebsite

/-- A float64 value as produced by `pd.to_numeric`: a finite value
(idealized as an exact rational, ignoring mantissa rounding) or an IEEE
infinity.  Float NaN coming out of a failed coercion is modelled as the
absent cell (`Cell.na`), since pandas treats it as missing everywhere the
program looks at it. -/
inductive PyFloat where
  | finite (q : ℚ)
  | inf (pos : Bool)
deriving DecidableEq

/-- Whether a float value is finite. -/
def PyFloat.isFinite : PyFloat → Bool
  | PyFloat.finite _ => true
  | PyFloat.inf _ => false

/-- A cell of tabular data: NaN/missing, a string value, or a numeric value. -/
inductive Cell where
  | na
  | str (s : String)
  | num (v : PyFloat)
deriving DecidableEq

/-- A DataFrame: column headers plus rows of cells, matched positionally. -/
structure DF where
  headers : List String
  rows : List (List Cell)
deriving DecidableEq

/-- The raw tabular source: a header row plus data rows of string fields
(the CSV after text decoding, before pandas NA-marking). -/
structure RawGrid where
  headers : List String
  rows : List (List String)
deriving DecidableEq

/-- The loader's typed failure from `load_data` lines 125-129: required
column(s) not found, carrying the missing canonical names and the columns
that were actually present. -/
inductive LoadErr where
  | missingRequired (missing : List String) (available : List String)
deriving DecidableEq

/-- Whitespace characters removed by Python's `str.strip`. -/
def isSpaceChar (c : Char) : Bool :=
  c = ' ' || c = '\t' || c = '\n' || c = '\r'

/-- Python `str.strip()` on a character list. -/
def trimChars (cs : List Char) : List Char :=
  ((cs.dropWhile isSpaceChar).reverse.dropWhile isSpaceChar).reverse

/-- Header normalization from `load_data` line 95:
`str(c).strip().lower().replace(' ', '_')`. -/
def normalizeName (s : String) : String :=
  String.mk (((trimChars s.data).map Char.toLower).map (fun c => if c = ' ' then '_' else c))

/-- `df.columns.str.startswith('unnamed')` from `load_data` line 99. -/
def startsWithUnnamed (h : String) : Bool :=
  List.isPrefixOf "unnamed".data h.data

/-- Accumulate the value of a digit string; `none` on a non-digit. -/
def digitsValAux : Nat → List Char → Option Nat
  | acc, [] => some acc
  | acc, c :: cs =>
    if '0' ≤ c ∧ c ≤ '9' then digitsValAux (acc * 10 + (c.toNat - 48)) cs
    else none

/-- Value of a non-empty digit string, `none` otherwise. -/
def digitsVal (cs : List Char) : Option Nat :=
  match cs with
  | [] => none
  | _ => digitsValAux 0 cs

/-- The decimal significand/exponent of a parsed number: the value is
`m * 10 ^ e` (sign carried separately). -/
structure DecNum where
  m : Nat
  e : Int
deriving DecidableEq

/-- Parse an unsigned decimal string (`"27"`, `"27.17"`, `"1."`, `".5"`)
into significand and exponent; `none` when the string is not a decimal
number. -/
def parseDecParts (cs : List Char) : Option DecNum :=
  match cs.span (fun c => decide (c ≠ '.')) with
  | (ip, []) => (digitsVal ip).map (fun n => ⟨n, 0⟩)
  | (ip, _ :: fp) =>
    if decide ('.' ∈ fp) then none
    else if ip.isEmpty && fp.isEmpty then none
    else
      match (if ip.isEmpty then some 0 else digitsVal ip),
            (if fp.isEmpty then some 0 else digitsVal fp) with
      | some i, some f => some ⟨i * 10 ^ fp.length + f, -(fp.length : Int)⟩
      | _, _ => none

/-- Parse an optionally signed exponent. -/
def parseExp : List Char → Option ℤ
  | '+' :: cs => (digitsVal cs).map (fun n => (n : ℤ))
  | '-' :: cs => (digitsVal cs).map (fun n => -(n : ℤ))
  | cs => (digitsVal cs).map (fun n => (n : ℤ))

/-- The special float names the float parser accepts (case-insensitively,
after the optional sign): `float('inf')`, `float('Infinity')`. -/
def infNames : List String := ["inf", "infinity"]

/-- A decimal `m * 10 ^ e` converts to float64 infinity exactly when its
magnitude reaches `2^1024 - 2^970` (the midpoint between the largest finite
float64 and `2^1024`, the overflow threshold of round-to-nearest-even; the
exact midpoint itself rounds up, i.e. overflows). -/
def overflowBound : Nat := 2 ^ 1024 - 2 ^ 970

/-- Whether the decimal `d` overflows float64 (integer arithmetic only). -/
def decNumOverflows (d : DecNum) : Bool :=
  match d.e with
  | Int.ofNat k => decide (overflowBound ≤ d.m * 10 ^ k)
  | Int.negSucc k => decide (overflowBound * 10 ^ (k + 1) ≤ d.m)

/-- The exact rational value of a decimal. -/
def decNumToRat (d : DecNum) : ℚ := (d.m : ℚ) * (10 : ℚ) ^ d.e

/-- Convert a parsed decimal with its sign to a float64 value: an IEEE
infinity when it overflows, else the (idealized exact) finite value. -/
def decNumToFloat (d : DecNum) (pos : Bool) : PyFloat :=
  if decNumOverflows d then PyFloat.inf pos
  else PyFloat.finite (if pos then decNumToRat d else -(decNumToRat d))

/-- Parse an unsigned float token: an infinity name, or a mantissa with an
optional `e`/`E` exponent. -/
def parseFloatCore (pos : Bool) (cs : List Char) : Option PyFloat :=
  if String.mk (cs.map Char.toLower) ∈ infNames then some (PyFloat.inf pos)
  else
    match cs.span (fun c => decide (c ≠ 'e') && decide (c ≠ 'E')) with
    | (mant, []) => (parseDecParts mant).map (fun d => decNumToFloat d pos)
    | (mant, _ :: ex) =>
      match parseDecParts mant, parseExp ex with
      | some d, some e2 => some (decNumToFloat ⟨d.m, d.e + e2⟩ pos)
      | _, _ => none

/-- Numeric coercion of a string, modelling the float parsing used by
`pd.to_numeric`: surrounding whitespace is ignored; sign, decimal point,
exponent and the `inf`/`Infinity` names are accepted, and a decimal whose
magnitude overflows float64 (such as `1e400`) yields an IEEE infinity, just
as `float`/`pd.to_numeric` do; anything else fails (`none`). -/
def parseNumeric (s : String) : Option PyFloat :=
  match trimChars s.data with
  | '+' :: cs => parseFloatCore true cs
  | '-' :: cs => parseFloatCore false cs
  | cs => parseFloatCore true cs

/-- pandas' default `na_values`: raw fields equal to one of these strings are
read as NaN by `pd.read_csv` (in particular the empty field). -/
def defaultNaValues : List String :=
  ["", "#N/A", "#N/A N/A", "#NA", "-1.#IND", "-1.#QNAN", "-NaN", "-nan",
   "1.#IND", "1.#QNAN", "<NA>", "N/A", "NA", "NULL", "NaN", "None",
   "n/a", "nan", "null"]

/-- NA-marking of one raw field, as done by `pd.read_csv`. -/
def toCell (s : String) : Cell :=
  if s ∈ defaultNaValues then Cell.na else Cell.str s

/-- Fit a row to the header count: truncate extra cells, pad missing cells
with NaN (pandas aligns each data row with the header row). -/
def conformRow (n : Nat) (r : List Cell) : List Cell :=
  r.take n ++ List.replicate (n - r.length) Cell.na

/-- `pd.read_csv('destinations.csv', encoding='utf-8-sig')` from line 91,
modelled from the decoded grid onward: NA-mark every field and align each
row with the header row. -/
def readCsv (g : RawGrid) : DF :=
  ⟨g.headers, g.rows.map (fun r => conformRow g.headers.length (r.map toCell))⟩

/-- `row['c']` / `df['c']` for one row: the cell in the first column whose
header is `c`, NaN when no such column exists. -/
def getCell : List String → List Cell → String → Cell
  | [], _, _ => Cell.na
  | _ :: _, [], _ => Cell.na
  | h :: hs, c :: cs, n => if h = n then c else getCell hs cs n

/-- Keep the entries of a list selected by a boolean mask
(`df.loc[:, mask]` applied to one positional list). -/
def maskKeep {α : Type} : List Bool → List α → List α
  | true :: m, x :: xs => x :: maskKeep m xs
  | false :: m, _ :: xs => maskKeep m xs
  | _, _ => []

/-- Keep the columns whose header satisfies `p`
(`df = df.loc[:, ~df.columns.str.startswith('unnamed')]`, line 99). -/
def selectCols (df : DF) (p : String → Bool) : DF :=
  ⟨maskKeep (df.headers.map p) df.headers,
   df.rows.map (fun r => maskKeep (df.headers.map p) r)⟩

/-- The synonym table of `load_data` lines 102-110, in dict insertion order. -/
def synonyms : List (String × List String) :=
  [("name", ["name", "destination", "place", "title", "location"]),
   ("state", ["state", "region", "province"]),
   ("description", ["description", "desc", "details", "about", "significance"]),
   ("popular_attractions",
      ["popular_attractions", "attractions", "popular_attraction", "attraction", "type"]),
   ("image_url", ["image_url", "image", "image_link", "imageurl", "photo", "photo_url"]),
   ("latitude", ["latitude", "lat"]),
   ("longitude", ["longitude", "lon", "long", "lng"])]

/-- The canonical column names (the keys of the synonym table). -/
def canonicalFields : List String :=
  ["name", "state", "description", "popular_attractions", "image_url",
   "latitude", "longitude"]

/-- The `found` dict of `load_data` lines 113-118: for each canonical field,
the first synonym present among the headers. -/
def findSynonyms (hs : List String) : List (String × String) :=
  synonyms.filterMap (fun p =>
    (p.2.find? (fun o => decide (o ∈ hs))).map (fun o => (p.1, o)))

/-- `rename_map = {found[k]: k for k in found}` from line 120. -/
def renameMapFor (hs : List String) : List (String × String) :=
  (findSynonyms hs).map (fun p => (p.2, p.1))

/-- First-match association lookup (a Python dict built from unique keys). -/
def assocLookup : List (String × String) → String → Option String
  | [], _ => none
  | p :: m, h => if p.1 = h then some p.2 else assocLookup m h

/-- `df.rename(columns=m)`: map every header through the dict, keeping
headers that are not keys. -/
def renameHeaders (m : List (String × String)) (hs : List String) : List String :=
  hs.map (fun h => match assocLookup m h with | some c => c | none => h)

/-- Lines 91-99 of `load_data`: read, normalize headers, drop `unnamed*`
columns. -/
def processedDF (g : RawGrid) : DF :=
  selectCols ⟨(readCsv g).headers.map normalizeName, (readCsv g).rows⟩
    (fun h => !startsWithUnnamed h)

/-- Lines 113-122 of `load_data`: rename the first present synonym of each
canonical field to the canonical name. -/
def renamedDF (g : RawGrid) : DF :=
  ⟨renameHeaders (renameMapFor (processedDF g).headers) (processedDF g).headers,
   (processedDF g).rows⟩

/-- `df['name'] = ...` for a column that is not yet present: append the
header and compute one new cell per row.  (In `load_data` every column
assignment is guarded by `if 'name' not in df.columns`.) -/
def ensureCol (df : DF) (name : String) (mk : List Cell → Cell) : DF :=
  if name ∈ df.headers then df
  else ⟨df.headers ++ [name], df.rows.map (fun r => r ++ [mk r])⟩

/-- The fallback derivation of lines 132-148: `description` from a remaining
`significance` or `type` column or else empty, `popular_attractions` from a
remaining `type` column or else empty, `image_url` empty. -/
def withFallbacks (df : DF) : DF :=
  let d4 := ensureCol df "description" (fun r =>
    if "significance" ∈ df.headers then getCell df.headers r "significance"
    else if "type" ∈ df.headers then getCell df.headers r "type"
    else Cell.str "")
  let d5 := ensureCol d4 "popular_attractions" (fun r =>
    if "type" ∈ d4.headers then getCell d4.headers r "type" else Cell.str "")
  ensureCol d5 "image_url" (fun _ => Cell.str "")

/-- `df = df.dropna(subset=['name', 'state'])` from line 151: keep the rows
whose `name` and `state` cells are both non-NaN. -/
def dropnaNameState (df : DF) : DF :=
  ⟨df.headers, df.rows.filter (fun r =>
    decide (getCell df.headers r "name" ≠ Cell.na) &&
    decide (getCell df.headers r "state" ≠ Cell.na))⟩

/-- One cell under `pd.to_numeric(..., errors='coerce')`: numbers pass
through, strings are parsed, anything unparseable (and NaN) becomes NaN. -/
def toNumericCell (c : Cell) : Cell :=
  match c with
  | Cell.na => Cell.na
  | Cell.num q => Cell.num q
  | Cell.str s =>
    match parseNumeric s with
    | some q => Cell.num q
    | none => Cell.na

/-- Apply `f` to the cells of every column named `target` (positionally). -/
def mapRowAt (target : String) (f : Cell → Cell) : List String → List Cell → List Cell
  | [], r => r
  | _ :: _, [] => []
  | h :: hs, c :: cs => (if h = target then f c else c) :: mapRowAt target f hs cs

/-- Lines 154-156: `if coord in df.columns: df[coord] = pd.to_numeric(
df[coord], errors='coerce')` for one coordinate name (headers unchanged
either way). -/
def coerceCoord (df : DF) (c : String) : DF :=
  ⟨df.headers,
   if c ∈ df.headers then df.rows.map (mapRowAt c toNumericCell df.headers)
   else df.rows⟩

/-- The loader `load_data` (lines 85-168) from the decoded raw grid onward:
normalize and rename headers, fail when `name`/`state` are unresolved,
derive the fallback columns, drop rows with missing `name`/`state`, coerce
the coordinate columns, and return the canonical table. -/
def loadData (g : RawGrid) : Except LoadErr DF :=
  let df3 := renamedDF g
  let missing := (["name", "state"] : List String).filter (fun c => decide (c ∉ df3.headers))
  if missing ≠ [] then Except.error (LoadErr.missingRequired missing df3.headers)
  else
    Except.ok (coerceCoord
      (coerceCoord (dropnaNameState (withFallbacks df3)) "latitude") "longitude")

/-- The table returned by a successful load (the empty table on failure);
used to state concrete evaluations of the loader. -/
def resultDF (g : RawGrid) : DF :=
  match loadData g with
  | Except.ok df => df
  | Except.error _ => ⟨[], []⟩

/-- Cell `c` of row `i` of the table returned by the loader. -/
def resultCell (g : RawGrid) (i : Nat) (c : String) : Cell :=
  getCell (resultDF g).headers ((resultDF g).rows.getD i []) c

/-- Row/header agreement: every row has exactly one cell per header. -/
def Wf (df : DF) : Prop := ∀ r ∈ df.rows, r.length = df.headers.length

/-- The synonym options of a canonical field. -/
def synOptions (c : String) : List String :=
  match synonyms.find? (fun p => decide (p.1 = c)) with
  | some p => p.2
  | none => []

/-- A canonical field is resolvable from a header list when one of its
synonyms is among the headers. -/
def resolvable (hs : List String) (c : String) : Prop :=
  ∃ o ∈ synOptions c, o ∈ hs

instance (hs : List String) (c : String) : Decidable (resolvable hs c) :=
  inferInstanceAs (Decidable (∃ o ∈ synOptions c, o ∈ hs))

/-- The UI filter state: the sidebar search text and the state selector
(lines 185-189); `"All"` is the sentinel for no state filter. -/
structure FilterState where
  searchQuery : String
  selectedState : String
deriving DecidableEq

/-- Contiguous-sublist test on character lists. -/
def isSubList (needle : List Char) : List Char → Bool
  | [] => needle.isEmpty
  | c :: t => needle.isPrefixOf (c :: t) || isSubList needle t

/-- Case-insensitive containment, modelling
`Series.str.contains(query, case=False)` on a plain (non-regex-special)
query string. -/
def strContainsCI (hay pat : String) : Bool :=
  isSubList (pat.data.map Char.toLower) (hay.data.map Char.toLower)

/-- `str.contains(query, case=False, na=False)` on one cell: NaN and
non-string cells do not match. -/
def cellContainsCI (q : String) (c : Cell) : Bool :=
  match c with
  | Cell.str s => strContainsCI s q
  | _ => false

/-- The search mask of lines 195-199: the query matches `name` or
`description` or `popular_attractions`. -/
def queryPred (hs : List String) (q : String) (r : List Cell) : Bool :=
  cellContainsCI q (getCell hs r "name") ||
  cellContainsCI q (getCell hs r "description") ||
  cellContainsCI q (getCell hs r "popular_attractions")

/-- The state filter of line 203: `filtered_df['state'] == selected_state`
(exact, case-sensitive; NaN and non-string cells do not match). -/
def statePred (hs : List String) (s : String) (r : List Cell) : Bool :=
  decide (getCell hs r "state" = Cell.str s)

/-- Lines 192-203 of `main`: start from a copy of the table, apply the
search filter when the query is non-empty, then the state filter when a
state is selected. -/
def applyFilters (df : DF) (fs : FilterState) : DF :=
  let r1 := if fs.searchQuery ≠ "" then df.rows.filter (queryPred df.headers fs.searchQuery)
            else df.rows
  let r2 := if fs.selectedState ≠ "All" then r1.filter (statePred df.headers fs.selectedState)
            else r1
  ⟨df.headers, r2⟩

/-- The same two filters applied in the opposite order (the order the spec
quantifies over), for comparison with `applyFilters`. -/
def applyFiltersStateFirst (df : DF) (fs : FilterState) : DF :=
  let r1 := if fs.selectedState ≠ "All" then df.rows.filter (statePred df.headers fs.selectedState)
            else df.rows
  let r2 := if fs.searchQuery ≠ "" then r1.filter (queryPred df.headers fs.searchQuery)
            else r1
  ⟨df.headers, r2⟩

/-- The conjunction of the two filter predicates (each with its
empty-query / `"All"` guard). -/
def combinedPred (hs : List String) (fs : FilterState) (r : List Cell) : Bool :=
  (decide (fs.searchQuery = "") || queryPred hs fs.searchQuery r) &&
  (decide (fs.selectedState = "All") || statePred hs fs.selectedState r)

/-- The filter pass of `main` with the two local DataFrames made explicit:
the first component is the binding `df` holds after the pass, the second is
`filtered_df` (lines 192-203: `filtered_df = df.copy()` followed by two
boolean-mask selections, each producing a new frame). -/
def mainFilterTrace (df : DF) (fs : FilterState) : DF × DF :=
  let filtered0 := df
  let filtered1 := if fs.searchQuery ≠ "" then
      (⟨filtered0.headers, filtered0.rows.filter (queryPred df.headers fs.searchQuery)⟩ : DF)
    else filtered0
  let filtered2 := if fs.selectedState ≠ "All" then
      (⟨filtered1.headers, filtered1.rows.filter (statePred filtered1.headers fs.selectedState)⟩ : DF)
    else filtered1
  (df, filtered2)

/-- `pd.notnull` on a cell. -/
def cellNotNa (c : Cell) : Bool := decide (c ≠ Cell.na)

/-- Python truthiness of a cell value (`if row.get('image_url')`): the empty
string and zero are falsy; NaN only reaches these guards behind `pd.notnull`. -/
def cellTruthy (c : Cell) : Bool :=
  match c with
  | Cell.na => false
  | Cell.str s => decide (s ≠ "")
  | Cell.num (PyFloat.finite q) => decide (q ≠ 0)
  | Cell.num (PyFloat.inf _) => true

/-- Python `str.split(',')` on a character list. -/
def splitComma : List Char → List (List Char)
  | [] => [[]]
  | ',' :: rest => [] :: splitComma rest
  | c :: rest =>
    match splitComma rest with
    | [] => [[c]]
    | g :: gs => (c :: g) :: gs

/-- Line 259: `[a.strip() for a in str(...).split(',') if a.strip()]`. -/
def parseAttractions (s : String) : List String :=
  ((splitComma s.data).map (fun cs => String.mk (trimChars cs))).filter
    (fun a => decide (a ≠ ""))

/-- A folium marker (lines 222-226): coordinates plus the `name` cell used
as popup and tooltip. -/
structure Marker where
  lat : Cell
  lon : Cell
  popup : Cell
  tooltip : Cell
deriving DecidableEq

/-- What the map column of the page shows: nothing at all when the table
lacks a coordinate column (the `if` of line 213 fails); the bare "Map View"
subheader when the filtered table is empty (line 215 fails); otherwise a map
with fixed center/zoom and one marker per filtered row with both
coordinates present. -/
inductive MapView where
  | absent
  | headerOnly
  | rendered (center : ℚ × ℚ) (zoom : Nat) (markers : List Marker)
deriving DecidableEq

/-- One destination card (lines 243-269). -/
structure Card where
  title : Cell × Cell
  image : Option Cell
  state : Cell
  description : Cell
  attractions : List String
  hasMapButton : Bool
deriving DecidableEq

/-- What the destinations section shows: the "No destinations found"
warning (line 241) or one card per filtered row. -/
inductive CardsView where
  | noResults
  | cards (cs : List Card)
deriving DecidableEq

/-- The data `main` hands to the renderer on one pass. -/
structure RenderOut where
  resultCount : Nat
  mapView : MapView
  cardsView : CardsView
deriving DecidableEq

/-- The marker of one row, when both its coordinates are non-NaN
(lines 221-226); `none` otherwise (the row is skipped). -/
def rowMarker (hs : List String) (r : List Cell) : Option Marker :=
  if cellNotNa (getCell hs r "latitude") && cellNotNa (getCell hs r "longitude") then
    some ⟨getCell hs r "latitude", getCell hs r "longitude",
          getCell hs r "name", getCell hs r "name"⟩
  else none

/-- The card of one row (lines 243-269). -/
def mkCard (hs : List String) (r : List Cell) : Card :=
  { title := (getCell hs r "name", getCell hs r "state")
    image := if cellNotNa (getCell hs r "image_url") && cellTruthy (getCell hs r "image_url")
             then some (getCell hs r "image_url") else none
    state := getCell hs r "state"
    description := getCell hs r "description"
    attractions :=
      if decide ("popular_attractions" ∈ hs) &&
         cellNotNa (getCell hs r "popular_attractions") &&
         cellTruthy (getCell hs r "popular_attractions") then
        match getCell hs r "popular_attractions" with
        | Cell.str s => parseAttractions s
        | _ => []
      else []
    hasMapButton :=
      decide ("latitude" ∈ hs) && decide ("longitude" ∈ hs) &&
      cellNotNa (getCell hs r "latitude") && cellNotNa (getCell hs r "longitude") }

/-- One render pass of `main` (lines 205-269) on the canonical table and the
current filter state: the result count, the map column, and the
destinations section. -/
def render (df : DF) (fs : FilterState) : RenderOut :=
  let filtered := applyFilters df fs
  { resultCount := filtered.rows.length
    mapView :=
      if decide ("latitude" ∈ df.headers) && decide ("longitude" ∈ df.headers) then
        if filtered.rows ≠ [] then
          MapView.rendered (20.5937, 78.9629) 5
            (filtered.rows.filterMap (rowMarker filtered.headers))
        else MapView.headerOnly
      else MapView.absent
    cardsView :=
      if filtered.rows = [] then CardsView.noResults
      else CardsView.cards (filtered.rows.map (mkCard filtered.headers)) }

/-! Concrete inputs used to evaluate the loader and the renderer. -/

/-- A source with headers `name`, `state`, `type` and arbitrary data rows. -/
def typeGrid (rows : List (List String)) : RawGrid :=
  ⟨["name", "state", "type"], rows⟩

/-- A source whose only non-required column is `type`. -/
def typeOnlyGrid : RawGrid := typeGrid [["A", "S", "Hill"]]

/-- The table the loader returns for `typeOnlyGrid`. -/
def typeOnlyDf : DF :=
  ⟨["name", "state", "popular_attractions", "description", "image_url"],
   [[Cell.str "A", Cell.str "S", Cell.str "Hill", Cell.str "", Cell.str ""]]⟩

/-- A source with a numeric latitude and a non-numeric longitude in the same
row. -/
def mixedCoordGrid : RawGrid :=
  ⟨["name", "state", "latitude", "longitude"], [["A", "S", "27.17", "abc"]]⟩

/-- A source whose latitude field is the string `inf`. -/
def infCoordGrid : RawGrid :=
  ⟨["name", "state", "latitude", "longitude"], [["A", "S", "inf", "1.5"]]⟩

/-- A source with coordinate columns whose values are both non-numeric. -/
def badCoordGrid : RawGrid :=
  ⟨["name", "state", "latitude", "longitude"], [["A", "S", "x", "y"]]⟩

/-- The table the loader returns for `badCoordGrid`. -/
def badCoordDf : DF :=
  ⟨["name", "state", "latitude", "longitude", "description",
    "popular_attractions", "image_url"],
   [[Cell.str "A", Cell.str "S", Cell.na, Cell.na, Cell.str "",
     Cell.str "", Cell.str ""]]⟩

/-- The single row of `badCoordDf`. -/
def badCoordRow : List Cell :=
  [Cell.str "A", Cell.str "S", Cell.na, Cell.na, Cell.str "",
   Cell.str "", Cell.str ""]

/-- A source with a non-canonical extra column `foo`. -/
def extraColGrid : RawGrid := ⟨["name", "state", "foo"], [["A", "S", "x"]]⟩

/-- The table the loader returns for `extraColGrid`. -/
def extraColDf : DF :=
  ⟨["name", "state", "foo", "description", "popular_attractions", "image_url"],
   [[Cell.str "A", Cell.str "S", Cell.str "x", Cell.str "",
     Cell.str "", Cell.str ""]]⟩

/-- A source with no column resolvable to `name` or `state`. -/
def unresolvedGrid : RawGrid := ⟨["City", "Country"], [["Agra", "India"]]⟩

/-- A two-row source whose second row has a blank `name` field. -/
def blankNameGrid : RawGrid := ⟨["name", "state"], [["Agra", "UP"], ["", "X"]]⟩

/-- The table the loader returns for `blankNameGrid` (the blank-name row is
dropped). -/
def blankNameDf : DF :=
  ⟨["name", "state", "description", "popular_attractions", "image_url"],
   [[Cell.str "Agra", Cell.str "UP", Cell.str "", Cell.str "", Cell.str ""]]⟩

/-- The single surviving row of `blankNameDf`. -/
def blankNameRow : List Cell :=
  [Cell.str "Agra", Cell.str "UP", Cell.str "", Cell.str "", Cell.str ""]

/-- A canonical table with coordinate columns and one row. -/
def coordDf : DF :=
  ⟨["name", "state", "description", "popular_attractions", "image_url",
    "latitude", "longitude"],
   [[Cell.str "Agra", Cell.str "UP", Cell.str "Fort", Cell.str "Taj",
     Cell.str "", Cell.num (PyFloat.finite 27), Cell.num (PyFloat.finite 78)]]⟩

/-- A canonical table without coordinate columns and one row. -/
def noCoordDf : DF :=
  ⟨["name", "state", "description", "popular_attractions", "image_url"],
   [[Cell.str "A", Cell.str "S", Cell.str "", Cell.str "", Cell.str ""]]⟩

/-- A filter state whose query matches nothing in `coordDf`. -/
def noHitFs : FilterState := ⟨"zzz", "All"⟩

/-- The neutral filter state: empty query, `"All"` states. -/
def allFs : FilterState := ⟨"", "All"⟩

/-! Helper lemmas about the list-level building blocks. -/

theorem filter_filter_and {α : Type} (p q : α → Bool) (l : List α) :
    (l.filter p).filter q = l.filter (fun a => p a && q a) := by
  induction l with
  | nil => rfl
  | cons x xs ih =>
    by_cases hp : p x <;> by_cases hq : q x <;>
      simp [List.filter_cons, hp, hq, ih]

theorem filter_swap {α : Type} (p q : α → Bool) (l : List α) :
    (l.filter p).filter q = (l.filter q).filter p := by
  induction l with
  | nil => rfl
  | cons x xs ih =>
    by_cases hp : p x <;> by_cases hq : q x <;>
      simp [List.filter_cons, hp, hq, ih]

theorem getCell_nil_row (hs : List String) (n : String) : getCell hs [] n = Cell.na := by
  cases hs <;> rfl

theorem getCell_cons (h : String) (hs : List String) (c : Cell) (cs : List Cell)
    (n : String) : getCell (h :: hs) (c :: cs) n = if h = n then c else getCell hs cs n :=
  rfl

theorem getCell_not_mem {hs : List String} {n : String} (hn : n ∉ hs) (r : List Cell) :
    getCell hs r n = Cell.na := by
  induction hs generalizing r with
  | nil => rfl
  | cons h t ih =>
    cases r with
    | nil => exact getCell_nil_row _ _
    | cons c cs =>
      rw [getCell_cons, if_neg (fun he => hn (by rw [← he]; exact List.mem_cons_self h t))]
      exact ih (fun hm => hn (List.mem_cons_of_mem _ hm)) cs

theorem getCell_na_or_mem (hs : List String) (r : List Cell) (n : String) :
    getCell hs r n = Cell.na ∨ getCell hs r n ∈ r := by
  induction hs generalizing r with
  | nil => exact Or.inl rfl
  | cons h t ih =>
    cases r with
    | nil => exact Or.inl (getCell_nil_row _ _)
    | cons c cs =>
      rw [getCell_cons]
      by_cases he : h = n
      · simp [he]
      · rw [if_neg he]
        rcases ih cs with h1 | h1
        · exact Or.inl h1
        · exact Or.inr (List.mem_cons_of_mem _ h1)

theorem getCell_append {hs : List String} {r : List Cell} (hlen : r.length = hs.length)
    (hs2 : List String) (r2 : List Cell) (n : String) :
    getCell (hs ++ hs2) (r ++ r2) n =
      if n ∈ hs then getCell hs r n else getCell hs2 r2 n := by
  induction hs generalizing r with
  | nil =>
    cases r with
    | nil => simp
    | cons c cs => simp at hlen
  | cons h t ih =>
    cases r with
    | nil => simp at hlen
    | cons c cs =>
      simp only [List.cons_append, getCell_cons]
      by_cases he : h = n
      · subst he
        simp [getCell_cons]
      · have hne : n ≠ h := fun hh => he hh.symm
        rw [if_neg he, ih (by simpa using hlen)]
        by_cases hm : n ∈ t <;> simp [List.mem_cons, hne, hm, getCell_cons, he]

theorem mapRowAt_length (t : String) (f : Cell → Cell) (hs : List String)
    (r : List Cell) : (mapRowAt t f hs r).length = r.length := by
  induction hs generalizing r with
  | nil => rfl
  | cons h tl ih =>
    cases r with
    | nil => rfl
    | cons c cs => simp [mapRowAt, ih]

theorem getCell_mapRowAt_ne {n t : String} (hne : n ≠ t) (f : Cell → Cell)
    (hs : List String) (r : List Cell) :
    getCell hs (mapRowAt t f hs r) n = getCell hs r n := by
  induction hs generalizing r with
  | nil => rfl
  | cons h tl ih =>
    cases r with
    | nil => rfl
    | cons c cs =>
      simp only [mapRowAt, getCell_cons]
      by_cases he : h = n
      · subst he
        rw [if_pos rfl, if_pos rfl, if_neg (fun ht => hne ht)]
      · rw [if_neg he, if_neg he, ih]

theorem getCell_mapRowAt_self {f : Cell → Cell} (hf : f Cell.na = Cell.na)
    (t : String) (hs : List String) (r : List Cell) :
    getCell hs (mapRowAt t f hs r) t = f (getCell hs r t) := by
  induction hs generalizing r with
  | nil => exact hf.symm
  | cons h tl ih =>
    cases r with
    | nil => simp [mapRowAt, getCell_nil_row, hf]
    | cons c cs =>
      simp only [mapRowAt, getCell_cons]
      by_cases he : h = t
      · simp only [if_pos he]
      · simp only [if_neg he]
        exact ih cs

theorem maskKeep_mem {α : Type} {x : α} {m : List Bool} {xs : List α}
    (h : x ∈ maskKeep m xs) : x ∈ xs := by
  induction m generalizing xs with
  | nil => cases xs <;> simp [maskKeep] at h
  | cons b t ih =>
    cases xs with
    | nil => cases b <;> simp [maskKeep] at h
    | cons y ys =>
      cases b with
      | false => exact List.mem_cons_of_mem _ (ih (by simpa [maskKeep] using h))
      | true =>
        rcases List.mem_cons.mp (by simpa [maskKeep] using h) with rfl | hm
        · exact List.mem_cons_self _ _
        · exact List.mem_cons_of_mem _ (ih hm)

theorem maskKeep_length_congr {α β : Type} (m : List Bool) (xs : List α)
    (ys : List β) (h : xs.length = ys.length) :
    (maskKeep m xs).length = (maskKeep m ys).length := by
  induction m generalizing xs ys with
  | nil => cases xs <;> cases ys <;> rfl
  | cons b t ih =>
    cases xs with
    | nil =>
      cases ys with
      | nil => cases b <;> rfl
      | cons y ys2 => simp at h
    | cons x xs2 =>
      cases ys with
      | nil => simp at h
      | cons y ys2 => cases b <;> simp [maskKeep, ih _ _ (by simpa using h)]

theorem maskKeep_map_filter {α : Type} (p : α → Bool) (xs : List α) :
    maskKeep (xs.map p) xs = xs.filter p := by
  induction xs with
  | nil => rfl
  | cons x t ih => cases hp : p x <;> simp [maskKeep, List.filter_cons, hp, ih]

theorem maskKeep_replicate_true {α : Type} (n : Nat) (xs : List α) :
    maskKeep (List.replicate n true) xs = xs.take n := by
  induction n generalizing xs with
  | zero => cases xs <;> rfl
  | succ k ih =>
    cases xs with
    | nil => rfl
    | cons x t => simp [List.replicate_succ, maskKeep, ih]

theorem conformRow_length (n : Nat) (r : List Cell) : (conformRow n r).length = n := by
  simp only [conformRow, List.length_append, List.length_take, List.length_replicate]
  omega

/-! Lemmas about the loader's stages. -/

theorem readCsv_wf (g : RawGrid) : Wf (readCsv g) := by
  intro r hr
  simp only [readCsv, List.mem_map] at hr
  obtain ⟨raw, _, rfl⟩ := hr
  simp [readCsv, conformRow_length]

theorem readCsv_cells (g : RawGrid) :
    ∀ r ∈ (readCsv g).rows, ∀ c ∈ r,
      c = Cell.na ∨ ∃ s, s ∉ defaultNaValues ∧ c = Cell.str s := by
  intro r hr c hc
  simp only [readCsv, List.mem_map] at hr
  obtain ⟨raw, _, rfl⟩ := hr
  simp only [conformRow, List.mem_append] at hc
  rcases hc with hc | hc
  · obtain ⟨s, _, rfl⟩ := List.mem_map.mp (List.take_subset _ _ hc)
    by_cases hna : s ∈ defaultNaValues
    · left
      simp [toCell, hna]
    · right
      exact ⟨s, hna, by simp [toCell, hna]⟩
  · left
    exact List.eq_of_mem_replicate hc

theorem processedDF_headers (g : RawGrid) :
    (processedDF g).headers =
      (g.headers.map normalizeName).filter (fun h => !startsWithUnnamed h) :=
  maskKeep_map_filter _ _

theorem processedDF_wf (g : RawGrid) : Wf (processedDF g) := by
  intro r hr
  simp only [processedDF, selectCols, List.mem_map] at hr ⊢
  obtain ⟨r0, hr0, rfl⟩ := hr
  exact maskKeep_length_congr _ _ _ (by rw [readCsv_wf g r0 hr0]; simp [readCsv])

theorem processedDF_cells (g : RawGrid) :
    ∀ r ∈ (processedDF g).rows, ∀ c ∈ r,
      c = Cell.na ∨ ∃ s, s ∉ defaultNaValues ∧ c = Cell.str s := by
  intro r hr c hc
  simp only [processedDF, selectCols, List.mem_map] at hr
  obtain ⟨r0, hr0, rfl⟩ := hr
  exact readCsv_cells g r0 hr0 c (maskKeep_mem hc)

theorem renamedDF_wf (g : RawGrid) : Wf (renamedDF g) := by
  intro r hr
  have h1 : r ∈ (processedDF g).rows := hr
  have h2 := processedDF_wf g r h1
  simpa [renamedDF, renameHeaders] using h2

theorem ensureCol_wf {df : DF} (hwf : Wf df) (name : String) (mk : List Cell → Cell) :
    Wf (ensureCol df name mk) := by
  unfold ensureCol
  by_cases hn : name ∈ df.headers
  · rw [if_pos hn]
    exact hwf
  · rw [if_neg hn]
    intro r hr
    simp only [List.mem_map] at hr
    obtain ⟨r0, hr0, rfl⟩ := hr
    simp [hwf r0 hr0]

theorem ensureCol_mem_mono {df : DF} {n : String} (h : n ∈ df.headers)
    (name : String) (mk : List Cell → Cell) : n ∈ (ensureCol df name mk).headers := by
  unfold ensureCol
  by_cases hn : name ∈ df.headers
  · rw [if_pos hn]
    exact h
  · rw [if_neg hn]
    exact List.mem_append_left _ h

theorem ensureCol_target_mem (df : DF) (name : String) (mk : List Cell → Cell) :
    name ∈ (ensureCol df name mk).headers := by
  unfold ensureCol
  by_cases hn : name ∈ df.headers
  · rw [if_pos hn]
    exact hn
  · rw [if_neg hn]
    exact List.mem_append_right _ (List.mem_singleton.mpr rfl)

theorem ensureCol_headers (df : DF) (name : String) (mk : List Cell → Cell) :
    (ensureCol df name mk).headers = df.headers ∨
    (ensureCol df name mk).headers = df.headers ++ [name] := by
  unfold ensureCol
  by_cases hn : name ∈ df.headers
  · rw [if_pos hn]
    exact Or.inl rfl
  · rw [if_neg hn]
    exact Or.inr rfl

theorem ensureCol_getCell {df : DF} (hwf : Wf df) {n : String} (hn : n ∈ df.headers)
    (name : String) (mk : List Cell → Cell) :
    ∀ r ∈ (ensureCol df name mk).rows, ∃ r0 ∈ df.rows,
      getCell (ensureCol df name mk).headers r n = getCell df.headers r0 n := by
  unfold ensureCol
  by_cases hc : name ∈ df.headers
  · rw [if_pos hc]
    intro r hr
    exact ⟨r, hr, rfl⟩
  · rw [if_neg hc]
    intro r hr
    simp only [List.mem_map] at hr
    obtain ⟨r0, hr0, rfl⟩ := hr
    refine ⟨r0, hr0, ?_⟩
    rw [getCell_append (hwf r0 hr0) _ _ n, if_pos hn]

theorem withFallbacks_wf {df : DF} (hwf : Wf df) : Wf (withFallbacks df) :=
  ensureCol_wf (ensureCol_wf (ensureCol_wf hwf _ _) _ _) _ _

theorem withFallbacks_getCell {df : DF} (hwf : Wf df) {n : String}
    (hn : n ∈ df.headers) :
    ∀ r ∈ (withFallbacks df).rows, ∃ r0 ∈ df.rows,
      getCell (withFallbacks df).headers r n = getCell df.headers r0 n := by
  intro r hr
  obtain ⟨r5, hr5, he5⟩ := ensureCol_getCell (ensureCol_wf (ensureCol_wf hwf _ _) _ _)
    (ensureCol_mem_mono (ensureCol_mem_mono hn _ _) _ _) _ _ r hr
  obtain ⟨r4, hr4, he4⟩ := ensureCol_getCell (ensureCol_wf hwf _ _)
    (ensureCol_mem_mono hn _ _) _ _ r5 hr5
  obtain ⟨r0, hr0, he0⟩ := ensureCol_getCell hwf hn _ _ r4 hr4
  exact ⟨r0, hr0, he5.trans (he4.trans he0)⟩

theorem dropnaNameState_mem {df : DF} {r : List Cell}
    (h : r ∈ (dropnaNameState df).rows) :
    r ∈ df.rows ∧ getCell df.headers r "name" ≠ Cell.na ∧
      getCell df.headers r "state" ≠ Cell.na := by
  simp only [dropnaNameState, List.mem_filter, Bool.and_eq_true,
    decide_eq_true_eq] at h
  exact ⟨h.1, h.2.1, h.2.2⟩

theorem coerceCoord_rows {df : DF} (c : String) :
    ∀ r ∈ (coerceCoord df c).rows, ∃ r0 ∈ df.rows,
      (∀ n, n ≠ c → getCell df.headers r n = getCell df.headers r0 n) ∧
      (getCell df.headers r c = toNumericCell (getCell df.headers r0 c) ∨
       getCell df.headers r c = Cell.na) := by
  unfold coerceCoord
  by_cases hc : c ∈ df.headers
  · rw [if_pos hc]
    intro r hr
    simp only [List.mem_map] at hr
    obtain ⟨r0, hr0, rfl⟩ := hr
    exact ⟨r0, hr0, fun n hn => getCell_mapRowAt_ne hn _ _ _,
      Or.inl (getCell_mapRowAt_self rfl c df.headers r0)⟩
  · rw [if_neg hc]
    intro r hr
    exact ⟨r, hr, fun n _ => rfl, Or.inr (getCell_not_mem hc r)⟩

theorem toNumericCell_shape (c : Cell) :
    toNumericCell c = Cell.na ∨ ∃ q, toNumericCell c = Cell.num q := by
  cases c with
  | na => exact Or.inl rfl
  | num q => exact Or.inr ⟨q, rfl⟩
  | str s =>
    cases hp : parseNumeric s with
    | none => exact Or.inl (by simp [toNumericCell, hp])
    | some q => exact Or.inr ⟨q, by simp [toNumericCell, hp]⟩

theorem loadData_ok_inv {g : RawGrid} {df : DF} (h : loadData g = Except.ok df) :
    "name" ∈ (renamedDF g).headers ∧ "state" ∈ (renamedDF g).headers ∧
    df = coerceCoord (coerceCoord (dropnaNameState (withFallbacks (renamedDF g)))
      "latitude") "longitude" := by
  simp only [loadData] at h
  split at h
  · cases h
  · rename_i hcond
    have hfil : (["name", "state"] : List String).filter
        (fun c => decide (c ∉ (renamedDF g).headers)) = [] := by
      by_contra hne
      exact hcond hne
    have hname : "name" ∈ (renamedDF g).headers := by
      by_contra hn
      simp [List.filter_cons, hn] at hfil
    have hstate : "state" ∈ (renamedDF g).headers := by
      by_contra hn
      simp [List.filter_cons, hname, hn] at hfil
    exact ⟨hname, hstate, (Except.ok.inj h).symm⟩

theorem coercedCoordsShape (d : DF) :
    ∀ r ∈ (coerceCoord (coerceCoord d "latitude") "longitude").rows,
      (getCell d.headers r "latitude" = Cell.na ∨
        ∃ q, getCell d.headers r "latitude" = Cell.num q) ∧
      (getCell d.headers r "longitude" = Cell.na ∨
        ∃ q, getCell d.headers r "longitude" = Cell.num q) := by
  intro r hr
  obtain ⟨r8, hr8, hne8, hlon⟩ := coerceCoord_rows "longitude" r hr
  obtain ⟨r7, hr7, hne7, hlat⟩ := coerceCoord_rows "latitude" r8 hr8
  constructor
  · have e : getCell d.headers r "latitude" = getCell d.headers r8 "latitude" :=
      hne8 "latitude" (by decide)
    rcases hlat with h1 | h1
    · rcases toNumericCell_shape (getCell d.headers r7 "latitude") with h2 | h2
      · exact Or.inl (e.trans (h1.trans h2))
      · obtain ⟨q, hq⟩ := h2
        exact Or.inr ⟨q, e.trans (h1.trans hq)⟩
    · exact Or.inl (e.trans h1)
  · rcases hlon with h1 | h1
    · rcases toNumericCell_shape (getCell d.headers r8 "longitude") with h2 | h2
      · exact Or.inl (h1.trans h2)
      · obtain ⟨q, hq⟩ := h2
        exact Or.inr ⟨q, h1.trans hq⟩
    · exact Or.inl h1

theorem loadTailNameState (d : DF) (hwf : Wf d)
    (hname : "name" ∈ d.headers) (hstate : "state" ∈ d.headers)
    (hcells : ∀ r ∈ d.rows, ∀ c ∈ r,
      c = Cell.na ∨ ∃ s, s ∉ defaultNaValues ∧ c = Cell.str s) :
    ∀ r ∈ (coerceCoord (coerceCoord (dropnaNameState (withFallbacks d)) "latitude")
        "longitude").rows,
      (∃ s, getCell (withFallbacks d).headers r "name" = Cell.str s ∧ s ≠ "") ∧
      (∃ s, getCell (withFallbacks d).headers r "state" = Cell.str s ∧ s ≠ "") := by
  intro r hr
  obtain ⟨r8, hr8, hne8, -⟩ := coerceCoord_rows "longitude" r hr
  obtain ⟨r7, hr7, hne7, -⟩ := coerceCoord_rows "latitude" r8 hr8
  obtain ⟨hr6, hnna, hsna⟩ := dropnaNameState_mem hr7
  obtain ⟨r3, hr3, hname_eq⟩ := withFallbacks_getCell hwf hname r7 hr6
  obtain ⟨r3s, hr3s, hstate_eq⟩ := withFallbacks_getCell hwf hstate r7 hr6
  have ename : getCell (withFallbacks d).headers r "name" = getCell d.headers r3 "name" :=
    (hne8 "name" (by decide)).trans ((hne7 "name" (by decide)).trans hname_eq)
  have estate : getCell (withFallbacks d).headers r "state" =
      getCell d.headers r3s "state" :=
    (hne8 "state" (by decide)).trans ((hne7 "state" (by decide)).trans hstate_eq)
  constructor
  · rcases getCell_na_or_mem d.headers r3 "name" with hcase | hcase
    · exact absurd hcase (hname_eq ▸ hnna)
    · rcases hcells r3 hr3 _ hcase with hcna | ⟨s, hs, heq⟩
      · exact absurd hcna (hname_eq ▸ hnna)
      · exact ⟨s, ename.trans heq, fun hempty => hs (by rw [hempty]; decide)⟩
  · rcases getCell_na_or_mem d.headers r3s "state" with hcase | hcase
    · exact absurd hcase (hstate_eq ▸ hsna)
    · rcases hcells r3s hr3s _ hcase with hcna | ⟨s, hs, heq⟩
      · exact absurd hcna (hstate_eq ▸ hsna)
      · exact ⟨s, estate.trans heq, fun hempty => hs (by rw [hempty]; decide)⟩

theorem withFallbacks_mem_mono {df : DF} {n : String} (h : n ∈ df.headers) :
    n ∈ (withFallbacks df).headers :=
  ensureCol_mem_mono (ensureCol_mem_mono (ensureCol_mem_mono h _ _) _ _) _ _

theorem withFallbacks_headers_mem (df : DF) :
    "description" ∈ (withFallbacks df).headers ∧
    "popular_attractions" ∈ (withFallbacks df).headers ∧
    "image_url" ∈ (withFallbacks df).headers :=
  ⟨ensureCol_mem_mono (ensureCol_mem_mono (ensureCol_target_mem _ _ _) _ _) _ _,
   ensureCol_mem_mono (ensureCol_target_mem _ _ _) _ _,
   ensureCol_target_mem _ _ _⟩

theorem ensureCol_headers_sub {df : DF} {h n : String} {mk : List Cell → Cell}
    (hh : h ∈ (ensureCol df n mk).headers) : h ∈ df.headers ∨ h = n := by
  rcases ensureCol_headers df n mk with he | he
  · rw [he] at hh
    exact Or.inl hh
  · rw [he] at hh
    rcases List.mem_append.mp hh with h1 | h1
    · exact Or.inl h1
    · exact Or.inr (List.mem_singleton.mp h1)

theorem withFallbacks_headers_sub (df : DF) :
    ∀ h ∈ (withFallbacks df).headers,
      h ∈ df.headers ∨
      h ∈ (["description", "popular_attractions", "image_url"] : List String) := by
  intro h hh
  rcases ensureCol_headers_sub hh with h5 | h5
  · rcases ensureCol_headers_sub h5 with h4 | h4
    · rcases ensureCol_headers_sub h4 with h3 | h3
      · exact Or.inl h3
      · exact Or.inr (by rw [h3]; decide)
    · exact Or.inr (by rw [h4]; decide)
  · exact Or.inr (by rw [h5]; decide)

theorem assocLookup_mem {m : List (String × String)} {h c : String}
    (he : assocLookup m h = some c) : ∃ p ∈ m, p.1 = h ∧ p.2 = c := by
  induction m with
  | nil => cases he
  | cons p t ih =>
    rw [assocLookup] at he
    by_cases hp : p.1 = h
    · rw [if_pos hp] at he
      exact ⟨p, List.mem_cons_self p t, hp, Option.some.inj he⟩
    · rw [if_neg hp] at he
      obtain ⟨q, hq, h1, h2⟩ := ih he
      exact ⟨q, List.mem_cons_of_mem _ hq, h1, h2⟩

theorem renameHeaders_mem {m : List (String × String)} {hs : List String} {h : String}
    (hh : h ∈ renameHeaders m hs) : h ∈ hs ∨ ∃ p ∈ m, p.2 = h := by
  unfold renameHeaders at hh
  obtain ⟨h0, hh0, heq⟩ := List.mem_map.mp hh
  cases hl : assocLookup m h0 with
  | none =>
    rw [hl] at heq
    exact Or.inl (heq ▸ hh0)
  | some c =>
    rw [hl] at heq
    obtain ⟨p, hp, -, h2⟩ := assocLookup_mem hl
    exact Or.inr ⟨p, hp, by rw [h2]; exact heq⟩

theorem synonyms_fst_canonical : ∀ p ∈ synonyms, p.1 ∈ canonicalFields := by decide

theorem synonyms_options : ∀ p ∈ synonyms, synOptions p.1 = p.2 := by decide

theorem renameMapFor_mem {hs : List String} {p : String × String}
    (hp : p ∈ renameMapFor hs) :
    ∃ syn ∈ synonyms, syn.1 = p.2 ∧ p.1 ∈ syn.2 ∧ p.1 ∈ hs := by
  unfold renameMapFor at hp
  obtain ⟨q, hq, heq⟩ := List.mem_map.mp hp
  obtain ⟨syn, hsyn, hfind⟩ := List.mem_filterMap.mp hq
  cases hf : syn.2.find? (fun o => decide (o ∈ hs)) with
  | none =>
    rw [hf] at hfind
    cases hfind
  | some o =>
    rw [hf] at hfind
    have hq_eq : q = (syn.1, o) := (Option.some.inj hfind).symm
    subst hq_eq
    have hd : decide (o ∈ hs) = true := by simpa using List.find?_some hf
    have hmemhs : o ∈ hs := of_decide_eq_true hd
    have hmemopts : o ∈ syn.2 := List.mem_of_find?_eq_some hf
    refine ⟨syn, hsyn, ?_, ?_, ?_⟩
    · rw [← heq]
    · rw [← heq]
      exact hmemopts
    · rw [← heq]
      exact hmemhs

theorem renamedHeader_classify {hs : List String} {h : String}
    (hh : h ∈ renameHeaders (renameMapFor hs) hs) :
    h ∈ hs ∨ h ∈ canonicalFields := by
  rcases renameHeaders_mem hh with h1 | ⟨p, hp, h2⟩
  · exact Or.inl h1
  · obtain ⟨syn, hsyn, he1, -, -⟩ := renameMapFor_mem hp
    right
    rw [← h2, ← he1]
    exact synonyms_fst_canonical syn hsyn

theorem unresolved_not_renamed {hs : List String} {c : String}
    (hself : c ∈ synOptions c) (hc : ¬ resolvable hs c) :
    c ∉ renameHeaders (renameMapFor hs) hs := by
  intro hmem
  rcases renameHeaders_mem hmem with h1 | ⟨p, hp, h2⟩
  · exact hc ⟨c, hself, h1⟩
  · obtain ⟨syn, hsyn, he1, he2, he3⟩ := renameMapFor_mem hp
    have hopts : synOptions c = syn.2 := by
      rw [← h2, ← he1]
      exact synonyms_options syn hsyn
    exact hc ⟨p.1, hopts.symm ▸ he2, he3⟩

theorem loadTail_headers (d : DF) :
    (coerceCoord (coerceCoord (dropnaNameState d) "latitude") "longitude").headers =
      d.headers := rfl

theorem maskKeep_trues_of_length {α : Type} (m : List Bool) (xs : List α)
    (hm : ∀ b ∈ m, b = true) (hl : xs.length = m.length) : maskKeep m xs = xs := by
  induction m generalizing xs with
  | nil =>
    cases xs with
    | nil => rfl
    | cons x t => simp at hl
  | cons b t ih =>
    cases xs with
    | nil => simp at hl
    | cons x xs2 =>
      have hb : b = true := hm b (List.mem_cons_self b t)
      subst hb
      show x :: maskKeep t xs2 = x :: xs2
      rw [ih xs2 (fun c hc => hm c (List.mem_cons_of_mem _ hc)) (by simpa using hl)]

set_option maxHeartbeats 4000000 in
theorem typeGrid_load_raw (rows : List (List String)) :
    loadData (typeGrid rows) = Except.ok
      ⟨["name", "state", "popular_attractions", "description", "image_url"],
       (((((rows.map (fun raw => conformRow 3 (raw.map toCell))).map
             (fun r => maskKeep [true, true, true] r)).map
             (fun r => r ++ [Cell.str ""])).map
           (fun r => r ++ [Cell.str ""])).filter
         (fun r =>
           decide (getCell ["name", "state", "popular_attractions", "description",
               "image_url"] r "name" ≠ Cell.na) &&
           decide (getCell ["name", "state", "popular_attractions", "description",
               "image_url"] r "state" ≠ Cell.na)))⟩ := rfl

theorem conformRow_cons (m : Nat) (c : Cell) (cs : List Cell) :
    conformRow (m + 1) (c :: cs) = c :: conformRow m cs := by
  simp [conformRow, Nat.succ_sub_succ]

theorem getD_replicate_na (n i : Nat) :
    (List.replicate n Cell.na).getD i Cell.na = Cell.na := by
  induction n generalizing i with
  | zero => cases i <;> rfl
  | succ m ih =>
    cases i with
    | zero => rfl
    | succ j => exact ih j

theorem conformRow_map_getD (raw : List String) :
    ∀ n i : Nat, i < n →
      (conformRow n (raw.map toCell)).getD i Cell.na = toCell (raw.getD i "") := by
  induction raw with
  | nil =>
    intro n i hi
    show (conformRow n []).getD i Cell.na = toCell (List.getD [] i "")
    have h1 : conformRow n ([] : List Cell) = List.replicate n Cell.na := by
      simp [conformRow]
    rw [h1, getD_replicate_na]
    rfl
  | cons s t ih =>
    intro n i hi
    cases n with
    | zero => omega
    | succ m =>
      show (conformRow (m + 1) (toCell s :: t.map toCell)).getD i Cell.na = _
      rw [conformRow_cons]
      cases i with
      | zero => rfl
      | succ j => exact ih m j (by omega)

theorem typeGrid_load (rows : List (List String)) :
    loadData (typeGrid rows) = Except.ok
      ⟨["name", "state", "popular_attractions", "description", "image_url"],
       ((((rows.map (fun raw => conformRow 3 (raw.map toCell))).map
             (fun r => r ++ [Cell.str ""])).map
           (fun r => r ++ [Cell.str ""])).filter
         (fun r =>
           decide (getCell ["name", "state", "popular_attractions", "description",
               "image_url"] r "name" ≠ Cell.na) &&
           decide (getCell ["name", "state", "popular_attractions", "description",
               "image_url"] r "state" ≠ Cell.na)))⟩ := by
  rw [typeGrid_load_raw]
  have h2 : (rows.map (fun raw => conformRow 3 (raw.map toCell))).map
      (fun r => maskKeep [true, true, true] r) =
      rows.map (fun raw => conformRow 3 (raw.map toCell)) := by
    have h3 : ∀ a ∈ rows.map (fun raw => conformRow 3 (raw.map toCell)),
        maskKeep [true, true, true] a = id a := by
      intro a ha
      obtain ⟨raw, -, rfl⟩ := List.mem_map.mp ha
      exact maskKeep_trues_of_length _ _ (by decide) (by rw [conformRow_length]; rfl)
    rw [List.map_congr_left h3, List.map_id]
  rw [h2]


theorem ensureCol_getCell_all {df : DF} (hwf : Wf df) (name : String)
    (mk : List Cell → Cell) :
    ∀ r ∈ (ensureCol df name mk).rows, ∃ r0 ∈ df.rows,
      ∀ n, n ∈ df.headers →
        getCell (ensureCol df name mk).headers r n = getCell df.headers r0 n := by
  unfold ensureCol
  by_cases hc : name ∈ df.headers
  · rw [if_pos hc]
    intro r hr
    exact ⟨r, hr, fun n _ => rfl⟩
  · rw [if_neg hc]
    intro r hr
    simp only [List.mem_map] at hr
    obtain ⟨r0, hr0, rfl⟩ := hr
    exact ⟨r0, hr0, fun n hn => by rw [getCell_append (hwf r0 hr0), if_pos hn]⟩

theorem ensureCol_new_getCell {df : DF} (hwf : Wf df) {name : String}
    (hn : name ∉ df.headers) (mk : List Cell → Cell) :
    ∀ r ∈ (ensureCol df name mk).rows, ∃ r0 ∈ df.rows,
      getCell (ensureCol df name mk).headers r name = mk r0 ∧
      ∀ n, n ∈ df.headers →
        getCell (ensureCol df name mk).headers r n = getCell df.headers r0 n := by
  unfold ensureCol
  rw [if_neg hn]
  intro r hr
  simp only [List.mem_map] at hr
  obtain ⟨r0, hr0, rfl⟩ := hr
  refine ⟨r0, hr0, ?_, fun n hnn => by rw [getCell_append (hwf r0 hr0), if_pos hnn]⟩
  rw [getCell_append (hwf r0 hr0), if_neg hn, getCell_cons, if_pos rfl]

theorem loadTailDescription (d : DF) (hwf : Wf d)
    (hnd : "description" ∉ d.headers) :
    ∀ r ∈ (coerceCoord (coerceCoord (dropnaNameState (withFallbacks d)) "latitude")
        "longitude").rows,
      getCell (withFallbacks d).headers r "description" =
        (if "significance" ∈ d.headers then
          getCell (withFallbacks d).headers r "significance"
        else if "type" ∈ d.headers then
          getCell (withFallbacks d).headers r "type"
        else Cell.str "") := by
  intro r hr
  obtain ⟨r8, hr8, hne8, -⟩ := coerceCoord_rows "longitude" r hr
  obtain ⟨r7, hr7, hne7, -⟩ := coerceCoord_rows "latitude" r8 hr8
  obtain ⟨hr6, -, -⟩ := dropnaNameState_mem hr7
  obtain ⟨r5, hr5, t5⟩ := ensureCol_getCell_all
    (ensureCol_wf (ensureCol_wf hwf _ _) _ _) _ _ r7 hr6
  obtain ⟨r4, hr4, t4⟩ := ensureCol_getCell_all (ensureCol_wf hwf _ _) _ _ r5 hr5
  obtain ⟨r0, hr0, hdesc, t0⟩ := ensureCol_new_getCell hwf hnd _ r4 hr4
  have hd4 : "description" ∈ (ensureCol d "description"
      (fun r => if "significance" ∈ d.headers then getCell d.headers r "significance"
        else if "type" ∈ d.headers then getCell d.headers r "type"
        else Cell.str "")).headers := ensureCol_target_mem _ _ _
  have hd5 : "description" ∈ (ensureCol (ensureCol d "description"
      (fun r => if "significance" ∈ d.headers then getCell d.headers r "significance"
        else if "type" ∈ d.headers then getCell d.headers r "type"
        else Cell.str "")) "popular_attractions"
      (fun r => if "type" ∈ (ensureCol d "description"
          (fun r => if "significance" ∈ d.headers then getCell d.headers r "significance"
            else if "type" ∈ d.headers then getCell d.headers r "type"
            else Cell.str "")).headers then
        getCell (ensureCol d "description"
          (fun r => if "significance" ∈ d.headers then getCell d.headers r "significance"
            else if "type" ∈ d.headers then getCell d.headers r "type"
            else Cell.str "")).headers r "type"
      else Cell.str "")).headers := ensureCol_mem_mono hd4 _ _
  have edesc : getCell (withFallbacks d).headers r "description" =
      (if "significance" ∈ d.headers then getCell d.headers r0 "significance"
        else if "type" ∈ d.headers then getCell d.headers r0 "type"
        else Cell.str "") :=
    ((hne8 _ (by decide)).trans (hne7 _ (by decide))).trans
      ((t5 _ hd5).trans ((t4 _ hd4).trans hdesc))
  by_cases hsig : "significance" ∈ d.headers
  · rw [if_pos hsig]
    have f1 : getCell (withFallbacks d).headers r "significance" =
        getCell d.headers r0 "significance" :=
      ((hne8 _ (by decide)).trans (hne7 _ (by decide))).trans
        ((t5 _ (ensureCol_mem_mono (ensureCol_mem_mono hsig _ _) _ _)).trans
          ((t4 _ (ensureCol_mem_mono hsig _ _)).trans (t0 _ hsig)))
    rw [edesc, if_pos hsig, f1]
  · rw [if_neg hsig]
    by_cases htyp : "type" ∈ d.headers
    · rw [if_pos htyp]
      have f1 : getCell (withFallbacks d).headers r "type" =
          getCell d.headers r0 "type" :=
        ((hne8 _ (by decide)).trans (hne7 _ (by decide))).trans
          ((t5 _ (ensureCol_mem_mono (ensureCol_mem_mono htyp _ _) _ _)).trans
            ((t4 _ (ensureCol_mem_mono htyp _ _)).trans (t0 _ htyp)))
      rw [edesc, if_neg hsig, if_pos htyp, f1]
    · rw [if_neg htyp, edesc, if_neg hsig, if_neg htyp]

theorem renameHeaders_mem_of_none {m : List (String × String)} {hs : List String}
    {h : String} (hh : h ∈ hs) (hl : assocLookup m h = none) :
    h ∈ renameHeaders m hs := by
  unfold renameHeaders
  refine List.mem_map.mpr ⟨h, hh, ?_⟩
  rw [hl]

theorem renameHeaders_mem_of_lookup {m : List (String × String)} {hs : List String}
    {h c : String} (hh : h ∈ hs) (hl : assocLookup m h = some c) :
    c ∈ renameHeaders m hs := by
  unfold renameHeaders
  refine List.mem_map.mpr ⟨h, hh, ?_⟩
  rw [hl]

theorem synonyms_disjoint :
    List.Pairwise (fun p q : String × List String => ∀ o ∈ p.2, o ∉ q.2) synonyms := by
  decide

theorem assocLookup_filterMap_swap (T : List (String × List String))
    (hs : List String)
    (hdis : List.Pairwise (fun p q => ∀ o ∈ p.2, o ∉ q.2) T)
    {c o : String}
    (hmem : (c, o) ∈ T.filterMap (fun p =>
      (p.2.find? (fun x => decide (x ∈ hs))).map (fun x => (p.1, x)))) :
    assocLookup ((T.filterMap (fun p =>
      (p.2.find? (fun x => decide (x ∈ hs))).map (fun x => (p.1, x)))).map
      (fun p => (p.2, p.1))) o = some c := by
  induction T with
  | nil => simp at hmem
  | cons p T ih =>
    rcases List.pairwise_cons.mp hdis with ⟨hhead, htail⟩
    rw [List.filterMap_cons] at hmem ⊢
    cases hfind : p.2.find? (fun z => decide (z ∈ hs)) with
    | none =>
      rw [hfind] at hmem
      simp only [Option.map_none'] at hmem ⊢
      exact ih htail hmem
    | some x =>
      rw [hfind] at hmem
      simp only [Option.map_some'] at hmem ⊢
      have hxp : x ∈ p.2 := List.mem_of_find?_eq_some hfind
      rcases List.mem_cons.mp hmem with heq | hmem2
      · have hc : c = p.1 := congrArg Prod.fst heq
        have ho : o = x := congrArg Prod.snd heq
        rw [List.map_cons, assocLookup, if_pos ho.symm, hc]
      · have hxo : x ≠ o := by
          intro hxeq
          obtain ⟨q2, hq2, hfq2⟩ := List.mem_filterMap.mp hmem2
          cases hf2 : q2.2.find? (fun z => decide (z ∈ hs)) with
          | none => rw [hf2] at hfq2; cases hfq2
          | some z =>
            rw [hf2] at hfq2
            have hz : z = o := congrArg Prod.snd (Option.some.inj hfq2)
            have : o ∈ q2.2 := hz ▸ List.mem_of_find?_eq_some hf2
            exact hhead q2 hq2 x hxp (hxeq ▸ this)
        rw [List.map_cons, assocLookup, if_neg hxo]
        exact ih htail hmem2

theorem findSynonyms_lookup {hs : List String} {p : String × String}
    (hp : p ∈ findSynonyms hs) :
    assocLookup (renameMapFor hs) p.2 = some p.1 := by
  obtain ⟨c, o⟩ := p
  exact assocLookup_filterMap_swap synonyms hs synonyms_disjoint hp

theorem findSynonyms_mem_hs {hs : List String} {p : String × String}
    (hp : p ∈ findSynonyms hs) : p.2 ∈ hs := by
  have hswap : (p.2, p.1) ∈ renameMapFor hs := List.mem_map.mpr ⟨p, hp, rfl⟩
  obtain ⟨syn, -, -, -, h3⟩ := renameMapFor_mem hswap
  exact h3

/-! Lemmas about the filter pass. -/

theorem filter_and_comm {α : Type} (p q : α → Bool) (l : List α) :
    l.filter (fun a => p a && q a) = l.filter (fun a => q a && p a) := by
  congr 1
  funext a
  exact Bool.and_comm _ _

theorem applyFilters_rows_eq (df : DF) (fs : FilterState) :
    (applyFilters df fs).rows = df.rows.filter (combinedPred df.headers fs) := by
  unfold applyFilters combinedPred
  by_cases hq : fs.searchQuery = "" <;> by_cases hst : fs.selectedState = "All"
  · simp [hq, hst]
  · simp [hq, hst]
  · simp [hq, hst]
  · simp [hq, hst]
    exact filter_and_comm _ _ _

theorem applyFiltersStateFirst_rows_eq (df : DF) (fs : FilterState) :
    (applyFiltersStateFirst df fs).rows = df.rows.filter (combinedPred df.headers fs) := by
  rw [← applyFilters_rows_eq]
  unfold applyFilters applyFiltersStateFirst
  by_cases hq : fs.searchQuery = "" <;> by_cases hst : fs.selectedState = "All"
  · simp [hq, hst]
  · simp [hq, hst]
  · simp [hq, hst]
  · simp [hq, hst]
    exact filter_and_comm _ _ _

/-! The claims. -/

/-- C7: for every canonical table and every filter state, applying the
search-query filter then the state filter yields the same rows as applying
the state filter then the search-query filter, and the combined result is
the rows satisfying the conjunction of the two predicates. -/
theorem C7_filters_commute (df : DF) (fs : FilterState) :
    applyFilters df fs = applyFiltersStateFirst df fs ∧
    (applyFilters df fs).rows = df.rows.filter (combinedPred df.headers fs) := by
  constructor
  · show (⟨df.headers, (applyFilters df fs).rows⟩ : DF) =
      ⟨df.headers, (applyFiltersStateFirst df fs).rows⟩
    rw [applyFilters_rows_eq, applyFiltersStateFirst_rows_eq]
  · exact applyFilters_rows_eq df fs

/-- C8 (amended): coordinate coercion is total and non-throwing: for every
cell (missing, string of any shape, or numeric),
`pd.to_numeric(errors='coerce')` yields a float value — possibly an IEEE
infinity, not necessarily finite — or the absent value, never an error (the
coercion is a total function). -/
theorem C8_coercion_amended (c : Cell) :
    toNumericCell c = Cell.na ∨ ∃ v, toNumericCell c = Cell.num v :=
  toNumericCell_shape c

/-- C9: the filter-and-render pass never mutates the canonical table: the
`df` binding is unchanged by the pass, `filtered_df` is the filtered copy,
and the filtered rows are a sublist of the canonical rows (no row is
altered or added). -/
theorem C9_filter_no_mutation (df : DF) (fs : FilterState) :
    (mainFilterTrace df fs).1 = df ∧
    (mainFilterTrace df fs).2 = applyFilters df fs ∧
    List.Sublist (applyFilters df fs).rows df.rows := by
  refine ⟨rfl, ?_, ?_⟩
  · unfold mainFilterTrace applyFilters
    by_cases hq : fs.searchQuery = "" <;> by_cases hst : fs.selectedState = "All" <;>
      simp [hq, hst]
  · rw [applyFilters_rows_eq]
    exact List.filter_sublist _

/-- C10: the map is rendered only when the canonical table has both
coordinate columns: when either is absent, the map view is absent entirely
(no map, no markers) even for a non-empty filtered result, while the card
list still shows one card per surviving row. -/
theorem C10_map_requires_coords (df : DF) (fs : FilterState)
    (h : "latitude" ∉ df.headers ∨ "longitude" ∉ df.headers) :
    (render df fs).mapView = MapView.absent ∧
    ((applyFilters df fs).rows ≠ [] →
      (render df fs).cardsView =
        CardsView.cards ((applyFilters df fs).rows.map
          (mkCard (applyFilters df fs).headers))) := by
  constructor
  · unfold render
    rcases h with h | h <;> simp [h]
  · intro hne
    unfold render
    simp [hne]

/-- C3 (amended): when filtering yields zero rows, the destinations section
shows the explicit no-results warning, but the map surface shows no
no-results indication: it is either absent entirely (no coordinate columns)
or reduced to the bare "Map View" subheader. -/
theorem C3_empty_result_amended (df : DF) (fs : FilterState)
    (h : (applyFilters df fs).rows = []) :
    (render df fs).cardsView = CardsView.noResults ∧
    ((render df fs).mapView = MapView.absent ∨
     (render df fs).mapView = MapView.headerOnly) := by
  constructor
  · unfold render
    simp [h]
  · unfold render
    by_cases hc : decide ("latitude" ∈ df.headers) && decide ("longitude" ∈ df.headers) <;>
      simp [h, hc]

/-- C2 (amended): in every row of the canonical table, each of the
`latitude` and `longitude` cells independently is either a number or
absent (never an unparsed string); a value that fails numeric coercion is
absent for that cell, and the loader returns normally. -/
theorem C2_coord_cells_amended (g : RawGrid) (df : DF)
    (h : loadData g = Except.ok df) :
    ∀ r ∈ df.rows,
      (getCell df.headers r "latitude" = Cell.na ∨
        ∃ q, getCell df.headers r "latitude" = Cell.num q) ∧
      (getCell df.headers r "longitude" = Cell.na ∨
        ∃ q, getCell df.headers r "longitude" = Cell.num q) := by
  obtain ⟨-, -, rfl⟩ := loadData_ok_inv h
  exact coercedCoordsShape (dropnaNameState (withFallbacks (renamedDF g)))

/-- C4: every record in the canonical table returned by the loader has a
non-empty `name` and a non-empty `state`: blank or unset fields are read as
NaN by the reader, and `dropna(subset=['name', 'state'])` removes any row in
which either is NaN, so no such row reaches the output. -/
theorem C4_name_state_nonempty (g : RawGrid) (df : DF)
    (h : loadData g = Except.ok df) :
    ∀ r ∈ df.rows,
      (∃ s, getCell df.headers r "name" = Cell.str s ∧ s ≠ "") ∧
      (∃ s, getCell df.headers r "state" = Cell.str s ∧ s ≠ "") := by
  obtain ⟨hname, hstate, rfl⟩ := loadData_ok_inv h
  intro r hr
  rw [loadTail_headers]
  exact loadTailNameState (renamedDF g) (renamedDF_wf g) hname hstate
    (processedDF_cells g) r hr

/-- C5 (amended): the table returned by the loader always contains the five
canonical text columns; every other column is either canonical
(latitude/longitude) or a normalized raw input header that the synonym
rename did not consume; every such unconsumed raw header remains a column
of the returned table rather than being dropped; and every canonical field
whose synonym was found is present under its canonical name (in particular
latitude/longitude when resolved). -/
theorem C5_columns_amended (g : RawGrid) (df : DF)
    (h : loadData g = Except.ok df) :
    (∀ c ∈ (["name", "state", "description", "popular_attractions", "image_url"] :
        List String), c ∈ df.headers) ∧
    (∀ h2 ∈ df.headers, h2 ∈ canonicalFields ∨ h2 ∈ g.headers.map normalizeName) ∧
    (∀ h2 ∈ (processedDF g).headers,
      assocLookup (renameMapFor (processedDF g).headers) h2 = none →
        h2 ∈ df.headers) ∧
    (∀ p ∈ findSynonyms (processedDF g).headers, p.1 ∈ df.headers) := by
  obtain ⟨hname, hstate, rfl⟩ := loadData_ok_inv h
  obtain ⟨hd, hp, hi⟩ := withFallbacks_headers_mem (renamedDF g)
  refine ⟨?_, ?_, ?_, ?_⟩
  · intro c hc
    rw [loadTail_headers]
    simp only [List.mem_cons, List.not_mem_nil, or_false] at hc
    rcases hc with rfl | rfl | rfl | rfl | rfl
    · exact withFallbacks_mem_mono hname
    · exact withFallbacks_mem_mono hstate
    · exact hd
    · exact hp
    · exact hi
  · intro h2 hh2
    rw [loadTail_headers] at hh2
    rcases withFallbacks_headers_sub (renamedDF g) h2 hh2 with h1 | h1
    · rcases renamedHeader_classify h1 with h3 | h3
      · right
        rw [processedDF_headers] at h3
        exact List.mem_of_mem_filter h3
      · exact Or.inl h3
    · left
      simp only [List.mem_cons, List.not_mem_nil, or_false] at h1
      rcases h1 with rfl | rfl | rfl <;> decide
  · intro h2 hh2 hnone
    rw [loadTail_headers]
    exact withFallbacks_mem_mono (renameHeaders_mem_of_none hh2 hnone)
  · intro p hp2
    rw [loadTail_headers]
    exact withFallbacks_mem_mono
      (renameHeaders_mem_of_lookup (findSynonyms_mem_hs hp2) (findSynonyms_lookup hp2))

/-- C6: when neither `name` nor `state` is resolvable from the processed
input headers via the synonym table, the loader fails with a
`MissingRequiredColumns` error that names both missing canonical fields and
lists the columns actually present (after renaming), and returns no
table. -/
theorem C6_missing_required (g : RawGrid)
    (hn : ¬ resolvable (processedDF g).headers "name")
    (hs : ¬ resolvable (processedDF g).headers "state") :
    loadData g = Except.error
      (LoadErr.missingRequired ["name", "state"] (renamedDF g).headers) := by
  have hname : "name" ∉ (renamedDF g).headers :=
    unresolved_not_renamed (by decide) hn
  have hstate : "state" ∉ (renamedDF g).headers :=
    unresolved_not_renamed (by decide) hs
  have hfil : (["name", "state"] : List String).filter
      (fun c => decide (c ∉ (renamedDF g).headers)) = ["name", "state"] := by
    simp [List.filter_cons, hname, hstate]
  simp only [loadData, hfil]
  rw [if_pos (show (["name", "state"] : List String) ≠ [] by decide)]

/-- For a source whose only non-required column is `type`, the synonym
rename consumes `type` into `popular_attractions` before the description
fallback runs, so `description` is the empty string for every row while
`popular_attractions` holds a copy of the raw `type` column. -/
theorem typeGrid_description_copy (rows : List (List String)) (df : DF)
    (h : loadData (typeGrid rows) = Except.ok df) :
    df.headers = ["name", "state", "popular_attractions", "description",
      "image_url"] ∧
    ∀ r ∈ df.rows,
      getCell df.headers r "description" = Cell.str "" ∧
      ∃ raw ∈ rows,
        getCell df.headers r "popular_attractions" = toCell (raw.getD 2 "") := by
  rw [typeGrid_load] at h
  obtain rfl := (Except.ok.inj h).symm
  refine ⟨rfl, ?_⟩
  intro r hr
  rcases List.mem_filter.mp hr with ⟨hmem, -⟩
  rcases List.mem_map.mp hmem with ⟨y, hy, rfl⟩
  rcases List.mem_map.mp hy with ⟨x, hx, rfl⟩
  rcases List.mem_map.mp hx with ⟨raw, hraw, rfl⟩
  have hlen : (conformRow 3 (raw.map toCell)).length =
      (["name", "state", "popular_attractions"] : List String).length := by
    rw [conformRow_length]
    rfl
  constructor
  · show getCell (["name", "state", "popular_attractions"] ++
        ["description", "image_url"])
      ((conformRow 3 (raw.map toCell) ++ [Cell.str ""]) ++ [Cell.str ""])
      "description" = Cell.str ""
    rw [List.append_assoc, getCell_append hlen, if_neg (by decide)]
    rfl
  · refine ⟨raw, hraw, ?_⟩
    show getCell (["name", "state", "popular_attractions"] ++
        ["description", "image_url"])
      ((conformRow 3 (raw.map toCell) ++ [Cell.str ""]) ++ [Cell.str ""])
      "popular_attractions" = toCell (raw.getD 2 "")
    rw [List.append_assoc, getCell_append hlen, if_pos (by decide)]
    obtain ⟨c0, c1, c2, hxeq⟩ := List.length_eq_three.mp
      (conformRow_length 3 (raw.map toCell))
    have hc2 : c2 = (conformRow 3 (raw.map toCell)).getD 2 Cell.na := by
      rw [hxeq]
      rfl
    rw [hxeq]
    show c2 = toCell (raw.getD 2 "")
    rw [hc2, conformRow_map_getD raw 3 2 (by omega)]

/-- C1 (counterexample): for the source whose only non-required column is
`type`, the returned table's `description` column holds the empty string
while `popular_attractions` holds the `type` value, so the two canonical
fields are not identical copies of the raw `type` column. -/
theorem C1_typeOnly_counterexample :
    loadData typeOnlyGrid = Except.ok typeOnlyDf ∧
    resultCell typeOnlyGrid 0 "description" = Cell.str "" ∧
    resultCell typeOnlyGrid 0 "popular_attractions" = Cell.str "Hill" ∧
    resultCell typeOnlyGrid 0 "description" ≠
      resultCell typeOnlyGrid 0 "popular_attractions" :=
  ⟨rfl, rfl, rfl, by decide⟩

/-- C1 (amended): whenever the synonym rename leaves `description`
unresolved, the loader derives it from a `significance` column still
present after renaming, else a `type` column still present after renaming
(reachable, e.g. headers `name, state, attractions, type`), else the empty
string — a raw column consumed by the rename no longer counts as present.
In particular, for a source whose only non-required column is `type`, the
rename consumes `type` into `popular_attractions`, so `description` is the
empty string for every row while `popular_attractions` holds a copy of the
raw `type` column — the two canonical fields are not identical copies. -/
theorem C1_description_fallback_amended (g : RawGrid) (df : DF)
    (h : loadData g = Except.ok df) :
    ("description" ∉ (renamedDF g).headers →
      ∀ r ∈ df.rows,
        getCell df.headers r "description" =
          (if "significance" ∈ (renamedDF g).headers then
            getCell df.headers r "significance"
          else if "type" ∈ (renamedDF g).headers then
            getCell df.headers r "type"
          else Cell.str "")) ∧
    (∀ rows, g = typeGrid rows →
      df.headers = ["name", "state", "popular_attractions", "description",
        "image_url"] ∧
      ∀ r ∈ df.rows,
        getCell df.headers r "description" = Cell.str "" ∧
        ∃ raw ∈ rows,
          getCell df.headers r "popular_attractions" = toCell (raw.getD 2 "")) := by
  constructor
  · intro hnd r hr
    obtain ⟨-, -, hdf⟩ := loadData_ok_inv h
    subst hdf
    rw [loadTail_headers]
    exact loadTailDescription (renamedDF g) (renamedDF_wf g) hnd r hr
  · intro rows hg
    subst hg
    exact typeGrid_description_copy rows df h

/-- C1 (witness): the amended statement evaluated on the one-row
type-only source. -/
theorem C1_amended_witness :
    loadData typeOnlyGrid = Except.ok typeOnlyDf ∧
    (typeOnlyDf.headers = ["name", "state", "popular_attractions", "description",
        "image_url"] ∧
     ∀ r ∈ typeOnlyDf.rows,
       getCell typeOnlyDf.headers r "description" = Cell.str "" ∧
       ∃ raw ∈ [["A", "S", "Hill"]],
         getCell typeOnlyDf.headers r "popular_attractions" =
           toCell (raw.getD 2 "")) :=
  ⟨rfl, (C1_description_fallback_amended typeOnlyGrid typeOnlyDf rfl).2
    [["A", "S", "Hill"]] rfl⟩

/-- C2 (counterexample): a row whose latitude is numeric and whose longitude
fails coercion ends up with a present latitude and an absent longitude,
so the coordinates are not "both present or both absent". -/
theorem C2_coord_pair_counterexample :
    (loadData mixedCoordGrid).isOk = true ∧
    resultCell mixedCoordGrid 0 "latitude" ≠ Cell.na ∧
    resultCell mixedCoordGrid 0 "longitude" = Cell.na :=
  ⟨rfl, by decide, rfl⟩

/-- C2 (witness): the amended statement evaluated on a source whose two
coordinate values both fail coercion. -/
theorem C2_amended_witness :
    loadData badCoordGrid = Except.ok badCoordDf ∧
    ((getCell badCoordDf.headers badCoordRow "latitude" = Cell.na ∨
       ∃ q, getCell badCoordDf.headers badCoordRow "latitude" = Cell.num q) ∧
     (getCell badCoordDf.headers badCoordRow "longitude" = Cell.na ∨
       ∃ q, getCell badCoordDf.headers badCoordRow "longitude" = Cell.num q)) :=
  ⟨rfl, C2_coord_cells_amended badCoordGrid badCoordDf rfl badCoordRow (by decide)⟩

/-- C3 (counterexample): on a filter state matching no rows, the pass
renders the bare "Map View" subheader (no map, no no-results indication on
the map surface) and the warning on the card list. -/
theorem C3_empty_result_counterexample :
    render coordDf noHitFs = ⟨0, MapView.headerOnly, CardsView.noResults⟩ := by
  decide

/-- C3 (witness): the amended statement evaluated on a table with coordinate
columns and a query matching nothing. -/
theorem C3_amended_witness :
    (applyFilters coordDf noHitFs).rows = [] ∧
    ((render coordDf noHitFs).cardsView = CardsView.noResults ∧
     ((render coordDf noHitFs).mapView = MapView.absent ∨
      (render coordDf noHitFs).mapView = MapView.headerOnly)) :=
  ⟨by decide, C3_empty_result_amended coordDf noHitFs (by decide)⟩

/-- C4 (witness): the non-empty name/state guarantee evaluated on a source
whose second raw row has a blank name and is dropped. -/
theorem C4_witness :
    loadData blankNameGrid = Except.ok blankNameDf ∧
    ((∃ s, getCell blankNameDf.headers blankNameRow "name" = Cell.str s ∧ s ≠ "") ∧
     (∃ s, getCell blankNameDf.headers blankNameRow "state" = Cell.str s ∧ s ≠ "")) :=
  ⟨rfl, C4_name_state_nonempty blankNameGrid blankNameDf rfl blankNameRow (by decide)⟩

/-- C5 (counterexample): a non-canonical raw header (`foo`) survives into
the returned table, so the returned column set is not exactly the canonical
set. -/
theorem C5_canonical_columns_counterexample :
    (loadData extraColGrid).isOk = true ∧
    "foo" ∈ (resultDF extraColGrid).headers ∧
    "foo" ∉ canonicalFields :=
  ⟨rfl, by decide, by decide⟩

/-- C5 (witness): the amended statement evaluated on the source with the
extra `foo` column. -/
theorem C5_amended_witness :
    loadData extraColGrid = Except.ok extraColDf ∧
    ((∀ c ∈ (["name", "state", "description", "popular_attractions",
        "image_url"] : List String), c ∈ extraColDf.headers) ∧
     (∀ h2 ∈ extraColDf.headers,
       h2 ∈ canonicalFields ∨ h2 ∈ extraColGrid.headers.map normalizeName) ∧
     (∀ h2 ∈ (processedDF extraColGrid).headers,
       assocLookup (renameMapFor (processedDF extraColGrid).headers) h2 = none →
         h2 ∈ extraColDf.headers) ∧
     (∀ p ∈ findSynonyms (processedDF extraColGrid).headers,
       p.1 ∈ extraColDf.headers)) :=
  ⟨rfl, C5_columns_amended extraColGrid extraColDf rfl⟩

/-- C6 (witness): a source with headers `City`/`Country` resolves neither
`name` nor `state` and fails with the typed error naming both and listing
the present columns. -/
theorem C6_witness :
    ¬ resolvable (processedDF unresolvedGrid).headers "name" ∧
    ¬ resolvable (processedDF unresolvedGrid).headers "state" ∧
    loadData unresolvedGrid = Except.error
      (LoadErr.missingRequired ["name", "state"] (renamedDF unresolvedGrid).headers) :=
  ⟨by decide, by decide, C6_missing_required unresolvedGrid (by decide) (by decide)⟩

/-- C8 (counterexample): the latitude value `inf` coerces to the IEEE
infinity — a present, non-finite number, neither a finite number nor
absent — and the loader returns it in the table without error. -/
theorem C8_inf_counterexample :
    (loadData infCoordGrid).isOk = true ∧
    resultCell infCoordGrid 0 "latitude" = Cell.num (PyFloat.inf true) ∧
    (PyFloat.inf true).isFinite = false ∧
    resultCell infCoordGrid 0 "latitude" ≠ Cell.na :=
  ⟨rfl, rfl, rfl, by decide⟩

/-- C10 (witness): on a coordinate-free table with a non-empty filtered
result, no map view is produced while the card list holds one card per
row. -/
theorem C10_witness :
    (applyFilters noCoordDf allFs).rows ≠ [] ∧
    ((render noCoordDf allFs).mapView = MapView.absent ∧
     (render noCoordDf allFs).cardsView =
       CardsView.cards ((applyFilters noCoordDf allFs).rows.map
         (mkCard (applyFilters noCoordDf allFs).headers))) := by
  have h := C10_map_requires_coords noCoordDf allFs (Or.inl (by decide))
  exact ⟨by decide, h.1, h.2 (by decide)⟩

end TouristWebsite
